import Mathlib

set_option maxRecDepth 100000

/-!
Verification of the sliding-window LED-matrix text scroller
(src/LED_Matrix/LED_Matrix.ino) against its natural-language design
specification.

Shallow embedding conventions:
* `byte` values are `Nat` with an explicit `% 256` wherever the C program
  could overflow a byte (`workingWindowColPtr++`, `msgCharPtr++`,
  `tailPtr += CHAR_WIDTH`, `windowPtr++`).
* The two 2-D pixel buffers are total functions `Nat → Nat → Nat`; every
  *read* of the message matrix goes through `ringRead`, which returns
  `none` on an out-of-range index, and every *write* performed by the
  glyph rasterizer goes through `writeCell`, which returns `none` on an
  out-of-range index.  An in-range write is a pointwise function update.
* The hardware frame buffer cells are `Option Nat`: `none` marks a cell
  that was filled from an out-of-range read of the message matrix.
* `displayHWbuffer`'s busy-wait timing loop is real time and is not
  modelled; one scan pass (the body of its `while`) is embedded as the
  list of (pin, level) writes it performs.  `setup`/`loop`/`pinMode` are
  hardware glue with no logic and are not modelled.
* The infinite `while (true)` loop of `scrollWindow` is embedded as a
  step function `scrollStep` on the orchestrator state plus an iterator
  `scrollRun`.  The state carries a ghost field `inserted`: the list of
  characters passed to `insertCharInMatrix` so far (the observable
  sequence of glyph-insertion events).
-/

-- #define NUM_HW_ROWS 8
abbrev NUM_HW_ROWS : Nat := 8
-- #define NUM_HW_COLUMNS 8
abbrev NUM_HW_COLUMNS : Nat := 8
-- #define CHAR_HEIGHT 7
abbrev CHAR_HEIGHT : Nat := 7
-- #define CHAR_WIDTH 6
abbrev CHAR_WIDTH : Nat := 6
-- #define MAX_CHARS_DISPLAYED 3
abbrev MAX_CHARS_DISPLAYED : Nat := 3
-- #define NUM_MSG_COLUMNS CHAR_WIDTH * MAX_CHARS_DISPLAYED  (= 18)
abbrev NUM_MSG_COLUMNS : Nat := CHAR_WIDTH * MAX_CHARS_DISPLAYED
-- #define CHAR_DEF_MATRIX_COLUMN_COUNT CHAR_WIDTH + 1  (= 7)
abbrev CHAR_DEF_MATRIX_COLUMN_COUNT : Nat := CHAR_WIDTH + 1
-- #define CHAR_DEF_MATRIX_ROW_COUNT 27
abbrev CHAR_DEF_MATRIX_ROW_COUNT : Nat := 27

/-- `byte charDefMatrix[27][7]`: each row is the ASCII code of the
character followed by its six column bitmasks, exactly as initialized in
the source (rows for 'a'..'z' = 97..122 and ' ' = 32). -/
def charDefMatrix : List (List Nat) :=
  [[97, 0, 2, 21, 21, 21, 15],
   [98, 0, 255, 5, 9, 9, 6],
   [99, 0, 14, 17, 17, 17, 2],
   [100, 0, 6, 9, 9, 5, 255],
   [101, 0, 14, 21, 21, 21, 12],
   [102, 0, 8, 63, 72, 64, 32],
   [103, 0, 24, 37, 37, 37, 62],
   [104, 0, 255, 8, 16, 16, 15],
   [105, 0, 0, 0, 47, 0, 0],
   [106, 0, 2, 1, 17, 94, 0],
   [107, 0, 127, 4, 10, 17, 0],
   [108, 0, 0, 65, 127, 1, 0],
   [109, 0, 31, 16, 12, 16, 15],
   [110, 0, 31, 8, 16, 16, 15],
   [111, 0, 14, 17, 17, 17, 14],
   [112, 0, 31, 20, 20, 20, 8],
   [113, 0, 8, 20, 20, 12, 31],
   [114, 0, 31, 8, 16, 16, 8],
   [115, 0, 9, 21, 21, 21, 2],
   [116, 0, 16, 126, 17, 1, 2],
   [117, 0, 31, 1, 1, 2, 31],
   [118, 0, 28, 2, 1, 2, 28],
   [119, 0, 30, 1, 6, 1, 30],
   [120, 0, 17, 10, 4, 10, 17],
   [121, 0, 24, 5, 5, 5, 62],
   [122, 0, 17, 19, 21, 25, 17],
   [32, 0, 0, 0, 0, 0, 0]]

/-- The message matrix `byte msgMatrix[NUM_HW_ROWS][NUM_MSG_COLUMNS]`
(and, before clearing, its arbitrary stack garbage) as a total function;
only indices `< 8` / `< 18` correspond to real array cells. -/
def MsgMatrix : Type := Nat → Nat → Nat

/-- The all-zero matrix, used as a concrete instantiation. -/
def zeroM : MsgMatrix := fun _ _ => 0

/-- Bounds-checked read `msgMatrix[r][c]`: `none` = out-of-range access. -/
def ringRead (m : MsgMatrix) (r c : Nat) : Option Nat :=
  if r < NUM_HW_ROWS ∧ c < NUM_MSG_COLUMNS then some (m r c) else none

/-- Pointwise update of one cell (the effect of an in-range write). -/
def setCell (m : MsgMatrix) (r c v : Nat) : MsgMatrix :=
  fun r' c' => if r' = r ∧ c' = c then v else m r' c'

/-- Bounds-checked write `msgMatrix[r][c] = v`: `none` = out-of-range. -/
def writeCell (m : MsgMatrix) (r c v : Nat) : Option MsgMatrix :=
  if r < NUM_HW_ROWS ∧ c < NUM_MSG_COLUMNS then some (setCell m r c v) else none

/-- `clearMsgMatrix` (lines 143-152): sets every cell with
`r < NUM_HW_ROWS`, `c < NUM_MSG_COLUMNS` to 0 (all writes in range). -/
def clearMsgMatrix (m : MsgMatrix) : MsgMatrix :=
  fun r c => if r < NUM_HW_ROWS ∧ c < NUM_MSG_COLUMNS then 0 else m r c

/-- The inner double loop of `insertCharInMatrix` for one glyph column
(lines 183-192): for `row` in `[0, CHAR_HEIGHT)` it writes
`msgMatrix[NUM_HW_ROWS - row - 1][ptr] = colByte & powerOfTwo` where
`powerOfTwo` starts at 1 and doubles each iteration (so equals
`2 ^ row`). -/
def writeGlyphCol (m : MsgMatrix) (ptr colByte : Nat) : Option MsgMatrix :=
  (List.range CHAR_HEIGHT).foldl
    (fun acc row =>
      acc.bind fun mm => writeCell mm (NUM_HW_ROWS - row - 1) ptr (colByte &&& 2 ^ row))
    (some m)

/-- `insertCharInMatrix` (lines 170-197): scans `charDefMatrix` rows for
the first row whose leading byte equals `c` (the `for j ... if ... break`
loop is a first-match search); on a match, writes the six column bitmaps
(`col` = 1..6 of the row) at columns `columnPtr, columnPtr+1, ...,
columnPtr+5` (`int currentColumnPtr` increments with no wraparound); on
no match it performs no writes. -/
def insertCharInMatrix (c : Nat) (m : MsgMatrix) (columnPtr : Nat) : Option MsgMatrix :=
  match charDefMatrix.find? (fun defRow => defRow.headD 0 == c) with
  | none => some m
  | some defRow =>
    (List.range CHAR_WIDTH).foldl
      (fun acc i =>
        acc.bind fun mm => writeGlyphCol mm (columnPtr + i) (defRow.getD (i + 1) 0))
      (some m)

/-- The wraparound check of `fillHWbuffer` (lines 270-273):
`if (workingWindowColPtr == NUM_MSG_COLUMNS) workingWindowColPtr = 0;`. -/
def wrapPtr (p : Nat) : Nat := if p = NUM_MSG_COLUMNS then 0 else p

/-- The effect of the row loop of `fillHWbuffer` (lines 266-274) on the
frame, iterating over the listed `row` values for one `col`, carrying
the frame `F` and `workingWindowColPtr` `p`: for each `row`, first the
assignment `HW_Matrix[row][col] = msgMatrix[row][workingWindowColPtr]`
(embedded as the bounds-checked `ringRead`, recorded by updating `F`),
and only then the wraparound check (`wrapPtr`) on the pointer. -/
def fillRowsF (m : MsgMatrix) (col : Nat) (F : Nat → Nat → Option Nat) (p : Nat) :
    List Nat → Nat → Nat → Option Nat
  | [] => F
  | row :: rest =>
    fillRowsF m col
      (fun r c => if r = row ∧ c = col then ringRead m row p else F r c)
      (wrapPtr p) rest

/-- The effect of the same row loop on `workingWindowColPtr`: the
wraparound check runs once per listed row. -/
def fillRowsPtr (p : Nat) : List Nat → Nat
  | [] => p
  | _ :: rest => fillRowsPtr (wrapPtr p) rest

/-- The column loop of `fillHWbuffer` (lines 264-276): for each `col`,
the row loop (its frame effect `fillRowsF` and its pointer effect
`fillRowsPtr`) followed by `workingWindowColPtr++` (a `byte`, hence
`% 256`). -/
def fillCols (m : MsgMatrix) (F : Nat → Nat → Option Nat) (p : Nat) :
    List Nat → (Nat → Nat → Option Nat) × Nat
  | [] => (F, p)
  | col :: rest =>
    fillCols m (fillRowsF m col F p (List.range NUM_HW_ROWS))
      ((fillRowsPtr p (List.range NUM_HW_ROWS) + 1) % 256) rest

/-- `fillHWbuffer` (lines 260-277): copies an 8-wide window of the
message matrix, starting at `windowColPtr` (a `byte` parameter, hence
`% 256`), into the hardware frame buffer.  Returns the frame (cells
`none` where the source performed an out-of-range read) and the final
pointer. -/
def fillHWbuffer (windowColPtr : Nat) (m : MsgMatrix) :
    (Nat → Nat → Option Nat) × Nat :=
  fillCols m (fun _ _ => none) (windowColPtr % 256) (List.range NUM_HW_COLUMNS)

/-- `byte row[] = {2,3,4,5,6,7,8,9}` — Arduino pin numbers for rows. -/
def rowPins : List Nat := [2, 3, 4, 5, 6, 7, 8, 9]

/-- `byte column[] = {A3, 10, 11, 12, 13, A0, A1, A2}` — Arduino pin
numbers for columns (on the Uno, A0..A3 are pins 14..17). -/
def columnPins : List Nat := [17, 10, 11, 12, 13, 14, 15, 16]

/-- One scan pass of `displayHWbuffer` (the body of its timed `while`
loop, lines 221-240): for each `ledColumn` it computes the eight row-pin
levels from `HWmatrix[ledRow][currentColumnPtr] != 0` and asserts that
column's pin; `currentColumnPtr` increments in lockstep.  The result is
the list of (row-pin, level) writes paired with the asserted column pin,
or `none` if a frame cell read is marked out-of-range.  The real-time
dwell (`delay`, `millis`) is not modelled. -/
def displayHWbuffer (HWmatrix : Nat → Nat → Option Nat) :
    Option (List (List (Nat × Bool) × Nat)) :=
  ((List.range NUM_HW_COLUMNS).foldl
    (fun acc ledColumn =>
      acc.bind fun st =>
        ((List.range NUM_HW_ROWS).mapM
          (fun ledRow => (HWmatrix ledRow st.2).map
            (fun v => (rowPins.getD ledRow 0, v != 0)))).map
          (fun rowWrites => (st.1 ++ [(rowWrites, columnPins.getD ledColumn 0)], st.2 + 1)))
    (some ([], 0))).map (fun st => st.1)

/-- Read of the C string `msg[k]`: the message is the list of its
characters' codes (NUL-free by the definition of a C string); index
`msg.length` holds the terminator `'\0'` (= 0); any larger index is an
out-of-range read (`none`). -/
def cStringRead (msg : List Nat) (k : Nat) : Option Nat :=
  if k < msg.length then some (msg.getD k 0)
  else if k = msg.length then some 0
  else none

/-- The local state of `scrollWindow` (lines 281-287), plus the ghost
log `inserted` of characters passed to `insertCharInMatrix`. -/
structure ScrollState where
  msgMatrix : MsgMatrix
  tailPtr : Nat
  windowPtr : Nat
  msgCharPtr : Nat
  inserted : List Nat

/-- One iteration of the `while (true)` loop of `scrollWindow`
(lines 289-322), minus the two calls with no effect on this state
(`fillHWbuffer` writes a local frame, `displayHWbuffer` only drives
pins): `windowPtr++` (byte); if the new `windowPtr % CHAR_WIDTH == 0`,
reset `msgCharPtr` to 0 when `msg[msgCharPtr]` is the terminator, call
`insertCharInMatrix(msg[msgCharPtr], msgMatrix, tailPtr)`, then
`msgCharPtr++` (byte) and `tailPtr += CHAR_WIDTH` (byte) with reset to 0
when it equals `NUM_MSG_COLUMNS`; finally reset `windowPtr` to 0 when it
equals `NUM_MSG_COLUMNS`.  `none` = an out-of-range string read or
matrix write occurred in this iteration. -/
def scrollStep (msg : List Nat) (s : ScrollState) : Option ScrollState :=
  let windowPtr := (s.windowPtr + 1) % 256
  if windowPtr % CHAR_WIDTH = 0 then
    match cStringRead msg s.msgCharPtr with
    | none => none
    | some c0 =>
      let msgCharPtr := if c0 = 0 then 0 else s.msgCharPtr
      match cStringRead msg msgCharPtr with
      | none => none
      | some c =>
        match insertCharInMatrix c s.msgMatrix s.tailPtr with
        | none => none
        | some m =>
          let msgCharPtr2 := (msgCharPtr + 1) % 256
          let tailPtr := (s.tailPtr + CHAR_WIDTH) % 256
          let tailPtr2 := if tailPtr = NUM_MSG_COLUMNS then 0 else tailPtr
          let windowPtr2 := if windowPtr = NUM_MSG_COLUMNS then 0 else windowPtr
          some { msgMatrix := m, tailPtr := tailPtr2, windowPtr := windowPtr2,
                 msgCharPtr := msgCharPtr2, inserted := s.inserted ++ [c] }
  else
    let windowPtr2 := if windowPtr = NUM_MSG_COLUMNS then 0 else windowPtr
    some { s with windowPtr := windowPtr2 }

/-- `n` iterations of the scroll loop. -/
def scrollRun (msg : List Nat) : Nat → ScrollState → Option ScrollState
  | 0, s => some s
  | n + 1, s => (scrollStep msg s).bind (scrollRun msg n)

/-- The state on entry to the loop: pointers 0, message matrix cleared
(`g` is the arbitrary stack garbage the uninitialized array held). -/
def initState (g : MsgMatrix) : ScrollState :=
  { msgMatrix := clearMsgMatrix g, tailPtr := 0, windowPtr := 0,
    msgCharPtr := 0, inserted := [] }

/-- The message of `testMsg` (line 327): " hi how are you today". -/
def msg21 : List Nat :=
  [32, 104, 105, 32, 104, 111, 119, 32, 97, 114, 101, 32,
   121, 111, 117, 32, 116, 111, 100, 97, 121]

/-- The message " hi" of the end-to-end scenario. -/
def msgHi : List Nat := [32, 104, 105]

/-- A 257-character NUL-free message: 256 copies of 'a' then one 'b'. -/
def msg257 : List Nat := List.replicate 256 97 ++ [98]

/-- Closed form of the seven writes `writeGlyphCol` performs for one
glyph column when the column index is in range (rows written are
`NUM_HW_ROWS - row - 1` for `row` in `[0, CHAR_HEIGHT)`, i.e. 7 down
to 1; row 0 is never written). -/
def glyphColSet (m : MsgMatrix) (ptr colByte : Nat) : MsgMatrix :=
  fun r c =>
    if r = 1 ∧ c = ptr then colByte &&& 64
    else if r = 2 ∧ c = ptr then colByte &&& 32
    else if r = 3 ∧ c = ptr then colByte &&& 16
    else if r = 4 ∧ c = ptr then colByte &&& 8
    else if r = 5 ∧ c = ptr then colByte &&& 4
    else if r = 6 ∧ c = ptr then colByte &&& 2
    else if r = 7 ∧ c = ptr then colByte &&& 1
    else m r c

lemma writeCell_in (m : MsgMatrix) (r c v : Nat) (hr : r < NUM_HW_ROWS)
    (hc : c < NUM_MSG_COLUMNS) : writeCell m r c v = some (setCell m r c v) := by
  simp [writeCell, hr, hc]

lemma writeGlyphCol_eq (m : MsgMatrix) (ptr colByte : Nat) (h : ptr < 18) :
    writeGlyphCol m ptr colByte = some (glyphColSet m ptr colByte) := by
  unfold writeGlyphCol
  rw [show List.range CHAR_HEIGHT = [0, 1, 2, 3, 4, 5, 6] from rfl]
  simp only [List.foldl_cons, List.foldl_nil, Option.some_bind]
  rw [writeCell_in _ _ _ _ (by norm_num) h, Option.some_bind,
    writeCell_in _ _ _ _ (by norm_num) h, Option.some_bind,
    writeCell_in _ _ _ _ (by norm_num) h, Option.some_bind,
    writeCell_in _ _ _ _ (by norm_num) h, Option.some_bind,
    writeCell_in _ _ _ _ (by norm_num) h, Option.some_bind,
    writeCell_in _ _ _ _ (by norm_num) h, Option.some_bind,
    writeCell_in _ _ _ _ (by norm_num) h]
  rfl

lemma glyphColSet_ne (m : MsgMatrix) (ptr colByte r c : Nat) (h : c ≠ ptr) :
    glyphColSet m ptr colByte r c = m r c := by
  simp [glyphColSet, h]

lemma glyphColSet_row0 (m : MsgMatrix) (ptr colByte c : Nat) :
    glyphColSet m ptr colByte 0 c = m 0 c := by
  simp [glyphColSet]

lemma glyphColSet_get (m : MsgMatrix) (ptr colByte b : Nat) (hb : b < CHAR_HEIGHT) :
    glyphColSet m ptr colByte (NUM_HW_ROWS - 1 - b) ptr = colByte &&& 2 ^ b := by
  interval_cases b <;> norm_num [glyphColSet]

lemma insertCharInMatrix_found (c : Nat) (m : MsgMatrix) (p : Nat) (defRow : List Nat)
    (hf : charDefMatrix.find? (fun r => r.headD 0 == c) = some defRow)
    (hp : p + 6 ≤ 18) :
    insertCharInMatrix c m p = some
      (glyphColSet (glyphColSet (glyphColSet (glyphColSet (glyphColSet (glyphColSet
        m (p + 0) (defRow.getD 1 0)) (p + 1) (defRow.getD 2 0)) (p + 2) (defRow.getD 3 0))
        (p + 3) (defRow.getD 4 0)) (p + 4) (defRow.getD 5 0)) (p + 5) (defRow.getD 6 0)) := by
  unfold insertCharInMatrix
  rw [hf]
  rw [show List.range CHAR_WIDTH = [0, 1, 2, 3, 4, 5] from rfl]
  simp only [List.foldl_cons, List.foldl_nil, Option.some_bind]
  rw [writeGlyphCol_eq _ _ _ (by omega), Option.some_bind,
    writeGlyphCol_eq _ _ _ (by omega), Option.some_bind,
    writeGlyphCol_eq _ _ _ (by omega), Option.some_bind,
    writeGlyphCol_eq _ _ _ (by omega), Option.some_bind,
    writeGlyphCol_eq _ _ _ (by omega), Option.some_bind,
    writeGlyphCol_eq _ _ _ (by omega)]

lemma insert_isSome (c : Nat) (m : MsgMatrix) (p : Nat)
    (hp : p + 6 ≤ 18) :
    ∃ M, insertCharInMatrix c m p = some M := by
  rcases hfind : charDefMatrix.find? (fun r => r.headD 0 == c) with _ | defRow
  · exact ⟨m, by unfold insertCharInMatrix; rw [hfind]⟩
  · exact ⟨_, insertCharInMatrix_found c m p defRow hfind hp⟩

lemma insert_cell (c : Nat) (m : MsgMatrix) (p : Nat) (defRow : List Nat) (M : MsgMatrix)
    (hf : charDefMatrix.find? (fun r => r.headD 0 == c) = some defRow)
    (hp : p + 6 ≤ 18)
    (hM : insertCharInMatrix c m p = some M) (i b : Nat)
    (hi : i < CHAR_WIDTH) (hb : b < CHAR_HEIGHT) :
    M (NUM_HW_ROWS - 1 - b) (p + i) = defRow.getD (i + 1) 0 &&& 2 ^ b := by
  rw [insertCharInMatrix_found c m p defRow hf hp] at hM
  have hM' := Option.some.inj hM
  subst hM'
  interval_cases i
  · rw [glyphColSet_ne _ _ _ _ _ (by omega), glyphColSet_ne _ _ _ _ _ (by omega),
      glyphColSet_ne _ _ _ _ _ (by omega), glyphColSet_ne _ _ _ _ _ (by omega),
      glyphColSet_ne _ _ _ _ _ (by omega)]
    rw [show p + 0 = p + 0 from rfl]
    rw [glyphColSet_get _ _ _ _ hb]
  · rw [glyphColSet_ne _ _ _ _ _ (by omega), glyphColSet_ne _ _ _ _ _ (by omega),
      glyphColSet_ne _ _ _ _ _ (by omega), glyphColSet_ne _ _ _ _ _ (by omega),
      glyphColSet_get _ _ _ _ hb]
  · rw [glyphColSet_ne _ _ _ _ _ (by omega), glyphColSet_ne _ _ _ _ _ (by omega),
      glyphColSet_ne _ _ _ _ _ (by omega), glyphColSet_get _ _ _ _ hb]
  · rw [glyphColSet_ne _ _ _ _ _ (by omega), glyphColSet_ne _ _ _ _ _ (by omega),
      glyphColSet_get _ _ _ _ hb]
  · rw [glyphColSet_ne _ _ _ _ _ (by omega), glyphColSet_get _ _ _ _ hb]
  · rw [glyphColSet_get _ _ _ _ hb]

lemma insert_row0 (c : Nat) (m : MsgMatrix) (p : Nat) (M : MsgMatrix)
    (hp : p + 6 ≤ 18)
    (hM : insertCharInMatrix c m p = some M) (j : Nat) : M 0 j = m 0 j := by
  rcases hfind : charDefMatrix.find? (fun r => r.headD 0 == c) with _ | defRow
  · unfold insertCharInMatrix at hM
    rw [hfind] at hM
    have := Option.some.inj hM
    subst this
    rfl
  · rw [insertCharInMatrix_found c m p defRow hfind hp] at hM
    have hM' := Option.some.inj hM
    subst hM'
    simp [glyphColSet_row0]

lemma scrollRun_succ (msg : List Nat) (n : Nat) (s : ScrollState) :
    scrollRun msg (n + 1) s = (scrollStep msg s).bind (scrollRun msg n) := rfl

lemma scrollRun_add (msg : List Nat) (a b : Nat) (s : ScrollState) :
    scrollRun msg (a + b) s = (scrollRun msg a s).bind (scrollRun msg b) := by
  induction a generalizing s with
  | zero => simp [scrollRun]
  | succ a ih =>
    rw [show a + 1 + b = (a + b) + 1 from by omega, scrollRun_succ, scrollRun_succ]
    cases scrollStep msg s with
    | none => rfl
    | some s1 => simp only [Option.some_bind, ih]

lemma wrapPtr_def (p : Nat) : wrapPtr p = if p = 18 then 0 else p := rfl

lemma range8_eq : List.range 8 = [0, 1, 2, 3, 4, 5, 6, 7] := rfl

lemma ringRead_row0_getD (m : MsgMatrix) (p : Nat) (hm0 : ∀ j, j < 18 → m 0 j = 0) :
    (ringRead m 0 p).getD 0 = 0 := by
  unfold ringRead
  split
  · next h => exact hm0 p h.2
  · rfl

set_option maxHeartbeats 4000000 in
lemma fill_cell (m : MsgMatrix) (p : Nat) (hp : p = 0 ∨ p = 6 ∨ p = 12) :
    ∀ r col, r < 8 → col < 8 → p + col < 18 →
      (fillHWbuffer p m).1 r col = some (m r (p + col)) := by
  rcases hp with rfl | rfl | rfl <;>
    · norm_num [fillHWbuffer, range8_eq, fillCols, fillRowsF, fillRowsPtr, wrapPtr_def,
        ringRead, NUM_HW_ROWS, NUM_MSG_COLUMNS, CHAR_WIDTH, MAX_CHARS_DISPLAYED]
      intro r col hr hcol hpc
      interval_cases r <;> interval_cases col <;>
        first
          | omega
          | simp

set_option maxHeartbeats 4000000 in
lemma fill_row0 (m : MsgMatrix) (wp : Nat) (hm0 : ∀ j, j < 18 → m 0 j = 0)
    (hwp : wp < 18) :
    ∀ col, col < 8 → ((fillHWbuffer wp m).1 0 col).getD 0 = 0 := by
  interval_cases wp <;>
    · norm_num [fillHWbuffer, range8_eq, fillCols, fillRowsF, fillRowsPtr, wrapPtr_def,
        ringRead, NUM_HW_ROWS, NUM_MSG_COLUMNS, CHAR_WIDTH, MAX_CHARS_DISPLAYED]
      intro col hcol
      interval_cases col <;> simp [hm0]

lemma scrollStep_nb (msg : List Nat) (s : ScrollState)
    (h1 : ((s.windowPtr + 1) % 256) % 6 ≠ 0)
    (h2 : (s.windowPtr + 1) % 256 ≠ 18) :
    scrollStep msg s = some { s with windowPtr := (s.windowPtr + 1) % 256 } := by
  have h1' : ((s.windowPtr + 1) % 256) % CHAR_WIDTH ≠ 0 := h1
  have h2' : (s.windowPtr + 1) % 256 ≠ NUM_MSG_COLUMNS := h2
  simp only [scrollStep, if_neg h1', if_neg h2']

lemma scrollStep_b (msg : List Nat) (s : ScrollState) (c0 cc : Nat) (M : MsgMatrix)
    (h1 : ((s.windowPtr + 1) % 256) % 6 = 0)
    (hc0 : cStringRead msg s.msgCharPtr = some c0)
    (hcc : cStringRead msg (if c0 = 0 then 0 else s.msgCharPtr) = some cc)
    (hM : insertCharInMatrix cc s.msgMatrix s.tailPtr = some M) :
    scrollStep msg s = some
      { msgMatrix := M,
        tailPtr := if (s.tailPtr + 6) % 256 = 18 then 0 else (s.tailPtr + 6) % 256,
        windowPtr := if (s.windowPtr + 1) % 256 = 18 then 0 else (s.windowPtr + 1) % 256,
        msgCharPtr := ((if c0 = 0 then 0 else s.msgCharPtr) + 1) % 256,
        inserted := s.inserted ++ [cc] } := by
  simp only [scrollStep, if_pos h1, hc0, hcc, hM]
  rfl

lemma cStringRead_lt (msg : List Nat) (k : Nat) (hk : k < msg.length) :
    cStringRead msg k = some (msg.getD k 0) := by
  simp [cStringRead, hk]

lemma cStringRead_len (msg : List Nat) : cStringRead msg msg.length = some 0 := by
  simp [cStringRead]

lemma cStringRead_isSome (msg : List Nat) (k : Nat) (h : k ≤ msg.length) :
    ∃ c, cStringRead msg k = some c := by
  unfold cStringRead
  rcases Nat.lt_or_ge k msg.length with hlt | hge
  · exact ⟨msg.getD k 0, by simp [hlt]⟩
  · have : k = msg.length := by omega
    exact ⟨0, by simp [this]⟩

lemma cStringRead_ne_zero_lt (msg : List Nat) (k c : Nat)
    (h : cStringRead msg k = some c) (hz : c ≠ 0) : k < msg.length := by
  unfold cStringRead at h
  split_ifs at h with h1 h2
  · exact h1
  · exact absurd (Option.some.inj h).symm hz

lemma invT_step (msg : List Nat) (s s' : ScrollState)
    (hw : s.windowPtr < 18) (ht6 : s.tailPtr % 6 = 0) (ht : s.tailPtr < 18)
    (hm0 : ∀ j, j < 18 → s.msgMatrix 0 j = 0)
    (h : scrollStep msg s = some s') :
    s'.windowPtr < 18 ∧ s'.tailPtr % 6 = 0 ∧ s'.tailPtr < 18 ∧
      (∀ j, j < 18 → s'.msgMatrix 0 j = 0) := by
  simp only [scrollStep] at h
  split at h
  next hb =>
    split at h
    next => exact Option.noConfusion h
    next c0 hc0 =>
      split at h
      next => exact Option.noConfusion h
      next cc hcc =>
        split at h
        next => exact Option.noConfusion h
        next M hM =>
          have hs := Option.some.inj h
          subst hs
          refine ⟨?_, ?_, ?_, ?_⟩
          · show (if (s.windowPtr + 1) % 256 = 18 then 0 else (s.windowPtr + 1) % 256) < 18
            split_ifs <;> omega
          · show (if (s.tailPtr + 6) % 256 = 18 then 0 else (s.tailPtr + 6) % 256) % 6 = 0
            have h3 : s.tailPtr = 0 ∨ s.tailPtr = 6 ∨ s.tailPtr = 12 := by omega
            rcases h3 with h3 | h3 | h3 <;> rw [h3] <;> norm_num
          · show (if (s.tailPtr + 6) % 256 = 18 then 0 else (s.tailPtr + 6) % 256) < 18
            have h3 : s.tailPtr = 0 ∨ s.tailPtr = 6 ∨ s.tailPtr = 12 := by omega
            rcases h3 with h3 | h3 | h3 <;> rw [h3] <;> norm_num
          · intro j hj
            show M 0 j = 0
            rw [insert_row0 cc s.msgMatrix s.tailPtr M (by omega) hM j]
            exact hm0 j hj
  next hb =>
    have hs := Option.some.inj h
    subst hs
    refine ⟨?_, ht6, ht, hm0⟩
    show (if (s.windowPtr + 1) % 256 = 18 then 0 else (s.windowPtr + 1) % 256) < 18
    split_ifs <;> omega

lemma invT_run (msg : List Nat) (n : Nat) : ∀ s s' : ScrollState,
    s.windowPtr < 18 → s.tailPtr % 6 = 0 → s.tailPtr < 18 →
    (∀ j, j < 18 → s.msgMatrix 0 j = 0) →
    scrollRun msg n s = some s' →
    s'.windowPtr < 18 ∧ s'.tailPtr % 6 = 0 ∧ s'.tailPtr < 18 ∧
      (∀ j, j < 18 → s'.msgMatrix 0 j = 0) := by
  induction n with
  | zero =>
    intro s s' hw ht6 ht hm0 h
    have hs := Option.some.inj h
    subst hs
    exact ⟨hw, ht6, ht, hm0⟩
  | succ n ih =>
    intro s s' hw ht6 ht hm0 h
    rw [scrollRun_succ] at h
    cases hstep : scrollStep msg s with
    | none => rw [hstep] at h; exact Option.noConfusion h
    | some s1 =>
      rw [hstep, Option.some_bind] at h
      obtain ⟨h1, h2, h3, h4⟩ := invT_step msg s s1 hw ht6 ht hm0 hstep
      exact ih s1 s' h1 h2 h3 h4 h

lemma invT_reach (msg : List Nat) (g : MsgMatrix) (n : Nat) (s : ScrollState)
    (h : scrollRun msg n (initState g) = some s) :
    s.windowPtr < 18 ∧ s.tailPtr % 6 = 0 ∧ s.tailPtr < 18 ∧
      (∀ j, j < 18 → s.msgMatrix 0 j = 0) := by
  refine invT_run msg n (initState g) s (by norm_num [initState]) (by norm_num [initState])
    (by norm_num [initState]) ?_ h
  intro j hj
  simp [initState, clearMsgMatrix, hj, NUM_HW_ROWS, NUM_MSG_COLUMNS, CHAR_WIDTH,
    MAX_CHARS_DISPLAYED]

lemma invC_step (msg : List Nat) (s s' : ScrollState) (hm : msg ≠ [])
    (hc : s.msgCharPtr ≤ msg.length) (h : scrollStep msg s = some s') :
    s'.msgCharPtr ≤ msg.length := by
  have hlen : 1 ≤ msg.length := by
    cases msg with
    | nil => exact absurd rfl hm
    | cons a l => simp
  simp only [scrollStep] at h
  split at h
  next hb =>
    split at h
    next => exact Option.noConfusion h
    next c0 hc0 =>
      split at h
      next => exact Option.noConfusion h
      next cc hcc =>
        split at h
        next => exact Option.noConfusion h
        next M hM =>
          have hs := Option.some.inj h
          subst hs
          show ((if c0 = 0 then 0 else s.msgCharPtr) + 1) % 256 ≤ msg.length
          by_cases hz : c0 = 0
          · rw [if_pos hz]
            omega
          · rw [if_neg hz]
            have hlt : s.msgCharPtr < msg.length := cStringRead_ne_zero_lt msg _ c0 hc0 hz
            omega
  next hb =>
    have hs := Option.some.inj h
    subst hs
    exact hc

lemma invC_run (msg : List Nat) (hm : msg ≠ []) (n : Nat) : ∀ s s' : ScrollState,
    s.msgCharPtr ≤ msg.length → scrollRun msg n s = some s' →
    s'.msgCharPtr ≤ msg.length := by
  induction n with
  | zero =>
    intro s s' hc h
    have hs := Option.some.inj h
    subst hs
    exact hc
  | succ n ih =>
    intro s s' hc h
    rw [scrollRun_succ] at h
    cases hstep : scrollStep msg s with
    | none => rw [hstep] at h; exact Option.noConfusion h
    | some s1 =>
      rw [hstep, Option.some_bind] at h
      exact ih s1 s' (invC_step msg s s1 hm hc hstep) h

lemma step_some (msg : List Nat) (s : ScrollState)
    (ht6 : s.tailPtr % 6 = 0) (ht : s.tailPtr < 18) (hc : s.msgCharPtr ≤ msg.length) :
    ∃ s', scrollStep msg s = some s' := by
  by_cases hb : ((s.windowPtr + 1) % 256) % 6 = 0
  · obtain ⟨c0, hc0⟩ := cStringRead_isSome msg s.msgCharPtr hc
    have hadj : (if c0 = 0 then 0 else s.msgCharPtr) ≤ msg.length := by
      split_ifs <;> omega
    obtain ⟨cc, hcc⟩ := cStringRead_isSome msg _ hadj
    obtain ⟨M, hM⟩ := insert_isSome cc s.msgMatrix s.tailPtr (by omega)
    exact ⟨_, scrollStep_b msg s c0 cc M hb hc0 hcc hM⟩
  · exact ⟨_, scrollStep_nb msg s hb (by omega)⟩

set_option maxHeartbeats 1000000 in
lemma run6_boundary (msg : List Nat) (s : ScrollState) (c0 cc : Nat)
    (hw6 : s.windowPtr % 6 = 0) (hw : s.windowPtr < 18)
    (ht6 : s.tailPtr % 6 = 0) (ht : s.tailPtr < 18)
    (hc0 : cStringRead msg s.msgCharPtr = some c0)
    (hcc : cStringRead msg (if c0 = 0 then 0 else s.msgCharPtr) = some cc) :
    ∃ M, insertCharInMatrix cc s.msgMatrix s.tailPtr = some M ∧
      scrollRun msg 6 s = some
        { msgMatrix := M,
          tailPtr := (s.tailPtr + 6) % 18,
          windowPtr := (s.windowPtr + 6) % 18,
          msgCharPtr := ((if c0 = 0 then 0 else s.msgCharPtr) + 1) % 256,
          inserted := s.inserted ++ [cc] } := by
  obtain ⟨M, hM⟩ := insert_isSome cc s.msgMatrix s.tailPtr (by omega)
  refine ⟨M, hM, ?_⟩
  obtain ⟨mm, tp, wp, mc, log⟩ := s
  dsimp only at hw6 hw ht6 ht hc0 hcc hM ⊢
  have hw3 : wp = 0 ∨ wp = 6 ∨ wp = 12 := by omega
  have ht3 : tp = 0 ∨ tp = 6 ∨ tp = 12 := by omega
  rcases hw3 with rfl | rfl | rfl <;> rcases ht3 with rfl | rfl | rfl
  all_goals
    rw [scrollRun_succ, scrollStep_nb msg _ (by norm_num) (by norm_num), Option.some_bind]
    rw [scrollRun_succ, scrollStep_nb msg _ (by norm_num) (by norm_num), Option.some_bind]
    rw [scrollRun_succ, scrollStep_nb msg _ (by norm_num) (by norm_num), Option.some_bind]
    rw [scrollRun_succ, scrollStep_nb msg _ (by norm_num) (by norm_num), Option.some_bind]
    rw [scrollRun_succ, scrollStep_nb msg _ (by norm_num) (by norm_num), Option.some_bind]
    rw [scrollRun_succ, scrollStep_b msg _ c0 cc M (by norm_num) hc0 hcc hM,
      Option.some_bind]
    norm_num [scrollRun]

lemma mod_succ_eq (a n : Nat) (hn : 0 < n) :
    (a + 1) % n = if a % n + 1 = n then 0 else a % n + 1 := by
  have hd := Nat.div_add_mod a n
  by_cases h : a % n + 1 = n
  · rw [if_pos h]
    have he : a + 1 = n * (a / n) + n := by omega
    rw [he, Nat.mul_add_mod, Nat.mod_self]
  · rw [if_neg h]
    have h2 : a % n < n := Nat.mod_lt a hn
    have he : a + 1 = n * (a / n) + (a % n + 1) := by omega
    rw [he, Nat.mul_add_mod, Nat.mod_eq_of_lt (by omega)]

lemma getD_mem_ne_zero (msg : List Nat) (hnz : ∀ x ∈ msg, x ≠ 0) (u : Nat)
    (hu : u < msg.length) : msg.getD u 0 ≠ 0 := by
  rw [List.getD_eq_getElem msg 0 hu]
  exact hnz _ (List.getElem_mem hu)

lemma traj (msg : List Nat) (g : MsgMatrix) (hm : msg ≠ [])
    (hlen : msg.length ≤ 255) (hnz : ∀ x ∈ msg, x ≠ 0) : ∀ k : Nat,
    ∃ s, scrollRun msg (6 * k) (initState g) = some s ∧
      s.windowPtr = (6 * k) % 18 ∧ s.tailPtr = (6 * k) % 18 ∧
      s.msgCharPtr = (if k = 0 then 0 else (k - 1) % msg.length + 1) ∧
      s.inserted = (List.range k).map (fun j => msg.getD (j % msg.length) 0) := by
  have hlen0 : 0 < msg.length := List.length_pos.mpr hm
  intro k
  induction k with
  | zero =>
    refine ⟨initState g, rfl, ?_, ?_, ?_, ?_⟩ <;> norm_num [initState]
  | succ k ih =>
    obtain ⟨s, hrun, hwp, htp, hmc, hlog⟩ := ih
    -- the character index inserted in this round
    have hidx : ∃ c0 adj, cStringRead msg s.msgCharPtr = some c0 ∧
        (if c0 = 0 then 0 else s.msgCharPtr) = adj ∧ adj = k % msg.length := by
      by_cases hk : k = 0
      · subst hk
        have hmc0 : s.msgCharPtr = 0 := by rw [hmc]; norm_num
        rw [hmc0]
        refine ⟨msg.getD 0 0, 0, cStringRead_lt msg 0 hlen0, ?_, by norm_num⟩
        rw [if_neg (getD_mem_ne_zero msg hnz 0 hlen0)]
      · have hk1 : k = (k - 1) + 1 := by omega
        have hmodp := mod_succ_eq (k - 1) msg.length hlen0
        rw [hmc, if_neg hk]
        by_cases hu : (k - 1) % msg.length + 1 = msg.length
        · refine ⟨0, 0, ?_, by simp, ?_⟩
          · rw [hu]
            exact cStringRead_len msg
          · rw [hk1, hmodp, if_pos hu]
        · have hu' : (k - 1) % msg.length + 1 < msg.length := by
            have := Nat.mod_lt (k - 1) hlen0
            omega
          refine ⟨msg.getD ((k - 1) % msg.length + 1) 0, (k - 1) % msg.length + 1,
            cStringRead_lt msg _ hu', ?_, ?_⟩
          · rw [if_neg (getD_mem_ne_zero msg hnz _ hu')]
          · rw [hk1, hmodp, if_neg hu]
            simp
    obtain ⟨c0, adj, hc0, hadj, hadjval⟩ := hidx
    have hcc : cStringRead msg (if c0 = 0 then 0 else s.msgCharPtr) =
        some (msg.getD (k % msg.length) 0) := by
      rw [hadj, hadjval]
      exact cStringRead_lt msg _ (Nat.mod_lt k hlen0)
    obtain ⟨M, hM, hrun6⟩ := run6_boundary msg s c0 (msg.getD (k % msg.length) 0)
      (by omega) (by omega) (by omega) (by omega) hc0 hcc
    refine ⟨{ msgMatrix := M
              tailPtr := (s.tailPtr + 6) % 18
              windowPtr := (s.windowPtr + 6) % 18
              msgCharPtr := ((if c0 = 0 then 0 else s.msgCharPtr) + 1) % 256
              inserted := s.inserted ++ [msg.getD (k % msg.length) 0] }, ?_, ?_, ?_, ?_, ?_⟩
    · rw [show 6 * (k + 1) = 6 * k + 6 from by ring, scrollRun_add, hrun,
        Option.some_bind, hrun6]
    · show (s.windowPtr + 6) % 18 = 6 * (k + 1) % 18
      omega
    · show (s.tailPtr + 6) % 18 = 6 * (k + 1) % 18
      omega
    · show ((if c0 = 0 then 0 else s.msgCharPtr) + 1) % 256 =
        if k + 1 = 0 then 0 else (k + 1 - 1) % msg.length + 1
      rw [hadj, hadjval, if_neg (Nat.succ_ne_zero k)]
      simp only [Nat.add_sub_cancel]
      have : k % msg.length + 1 < 256 := by
        have := Nat.mod_lt k hlen0
        omega
      omega
    · show s.inserted ++ [msg.getD (k % msg.length) 0] = _
      rw [hlog, List.range_succ, List.map_append]
      rfl

set_option maxHeartbeats 1000000 in
/-- C1: the claimed extraction formula
`frame[row][col] = source[row][(window_left + col) mod MSG_COLUMNS]` fails at
`window_left = 17`: the wraparound check runs after the read, so the frame
cell (row 0, column 1) is read from `msgMatrix[0][18]` — out of range
(`none`) — instead of ring column 0; the remaining cells of that column and
the later columns do follow the claimed formula. -/
theorem C1_window_wrap (m : MsgMatrix) :
    (fillHWbuffer 17 m).1 0 0 = some (m 0 17) ∧
    (fillHWbuffer 17 m).1 0 1 = none ∧
    (fillHWbuffer 17 m).1 1 1 = some (m 1 0) ∧
    (fillHWbuffer 17 m).1 7 1 = some (m 7 0) ∧
    (fillHWbuffer 17 m).1 0 2 = some (m 0 1) := by
  norm_num [fillHWbuffer, range8_eq, fillCols, fillRowsF, fillRowsPtr, wrapPtr_def,
    ringRead, NUM_HW_ROWS, NUM_MSG_COLUMNS, CHAR_WIDTH, MAX_CHARS_DISPLAYED]

/-- C2: the `none` branch is reachable under the orchestrator's own
sequencing: running the test message for 11 cycles leaves the window
pointer at 11, and the very next `fillHWbuffer` reads frame cell
(row 0, column 7) from `msgMatrix[0][18]` (out of range, `none`). -/
theorem C2_reachable_oob :
    (scrollRun msg21 11 (initState zeroM)).map (fun s => s.windowPtr) = some 11 ∧
    (scrollRun msg21 11 (initState zeroM)).map
      (fun s => (fillHWbuffer s.windowPtr s.msgMatrix).1 0 7) = some none := by
  decide

/-- C3 (amended): for a character present in the glyph table and an
insertion column with `insertion_column + CHAR_WIDTH ≤ MSG_COLUMNS`, the
rasterizer writes glyph column `i` at ring column
`(insertion_column + i) mod MSG_COLUMNS` (which here is just
`insertion_column + i`: the code applies no circular index), placing bit
`b` of the column byte at row `HW_ROWS - 1 - b`, overwriting those cells. -/
theorem C3_rasterize_columns (c : Nat) (m : MsgMatrix) (p : Nat) (defRow : List Nat)
    (hf : charDefMatrix.find? (fun r => r.headD 0 == c) = some defRow)
    (hp : p + CHAR_WIDTH ≤ NUM_MSG_COLUMNS) :
    ∃ M, insertCharInMatrix c m p = some M ∧
      ∀ i b, i < CHAR_WIDTH → b < CHAR_HEIGHT →
        M (NUM_HW_ROWS - 1 - b) ((p + i) % NUM_MSG_COLUMNS) =
          defRow.getD (i + 1) 0 &&& 2 ^ b := by
  have hp' : p + 6 ≤ 18 := hp
  obtain ⟨M, hM⟩ := insert_isSome c m p hp'
  refine ⟨M, hM, ?_⟩
  intro i b hi hb
  have hi' : i < 6 := hi
  have hmod : (p + i) % NUM_MSG_COLUMNS = p + i := Nat.mod_eq_of_lt (by omega)
  rw [hmod]
  exact insert_cell c m p defRow M hf hp' hM i b hi hb

/-- C3 witness: inserting 'a' at column 12 (the largest in-bounds
insertion point). -/
theorem C3_rasterize_columns_witness :
    charDefMatrix.find? (fun r => r.headD 0 == 97) = some [97, 0, 2, 21, 21, 21, 15] ∧
    12 + CHAR_WIDTH ≤ NUM_MSG_COLUMNS ∧
    ∃ M, insertCharInMatrix 97 zeroM 12 = some M ∧
      ∀ i b, i < CHAR_WIDTH → b < CHAR_HEIGHT →
        M (NUM_HW_ROWS - 1 - b) ((12 + i) % NUM_MSG_COLUMNS) =
          ([97, 0, 2, 21, 21, 21, 15] : List Nat).getD (i + 1) 0 &&& 2 ^ b :=
  ⟨by decide, by decide, C3_rasterize_columns 97 zeroM 12 _ (by decide) (by decide)⟩

/-- C3 counterexample: at insertion column 13 ∈ [0, MSG_COLUMNS) the claimed
per-column circular index does not exist — the write to column 13 + 5 = 18
is out of range and the insertion fails (`none`) instead of wrapping to
ring column 0. -/
theorem C3_no_wraparound :
    (insertCharInMatrix 97 zeroM 13).isSome = false := by
  decide

/-- C4: for the message " hi", starting from the cleared state: after the
first 6 cycles the frame extracted at window_left = 0 is entirely unlit
(the blank ' ' glyph fills the view), and after 12 cycles the 'h' glyph
has begun entering that frame: frame columns 6 and 7 hold 'h' glyph
columns 0 and 1 (bitmasks 0 and 255, bit b at row HW_ROWS - 1 - b) while
columns 0..5 are still unlit. -/
theorem C4_hi_scenario :
    ((scrollRun msgHi 6 (initState zeroM)).map (fun s =>
      (List.range 8).all fun r => (List.range 8).all fun c =>
        (fillHWbuffer 0 s.msgMatrix).1 r c == some 0) = some true) ∧
    ((scrollRun msgHi 12 (initState zeroM)).map (fun s =>
      ((List.range 7).all fun b =>
        ((fillHWbuffer 0 s.msgMatrix).1 (8 - 1 - b) 6 == some (0 &&& 2 ^ b)) &&
        ((fillHWbuffer 0 s.msgMatrix).1 (8 - 1 - b) 7 == some (255 &&& 2 ^ b))) &&
      ((List.range 8).all fun r => (List.range 6).all fun c =>
        (fillHWbuffer 0 s.msgMatrix).1 r c == some 0)) = some true) := by
  decide

/-- C5: glyph round-trip — rasterizing a table character at a
character-aligned column `p` and extracting at `window_left = p`
reproduces the glyph exactly, row-flipped: frame cell
`(HW_ROWS - 1 - b, i)` holds glyph column `i`'s byte masked with `2 ^ b`,
and it is lit iff bit `b` of that byte is set. -/
theorem C5_glyph_roundtrip (c : Nat) (m : MsgMatrix) (p : Nat) (defRow : List Nat)
    (hf : charDefMatrix.find? (fun r => r.headD 0 == c) = some defRow)
    (hp : p = 0 ∨ p = 6 ∨ p = 12) :
    ∃ M, insertCharInMatrix c m p = some M ∧
      ∀ i b, i < CHAR_WIDTH → b < CHAR_HEIGHT →
        (fillHWbuffer p M).1 (NUM_HW_ROWS - 1 - b) i =
          some (defRow.getD (i + 1) 0 &&& 2 ^ b) ∧
        ((((fillHWbuffer p M).1 (NUM_HW_ROWS - 1 - b) i).getD 0 ≠ 0) ↔
          (defRow.getD (i + 1) 0).testBit b) := by
  have hp6 : p + 6 ≤ 18 := by rcases hp with rfl | rfl | rfl <;> norm_num
  obtain ⟨M, hM⟩ := insert_isSome c m p hp6
  refine ⟨M, hM, ?_⟩
  intro i b hi hb
  have hi' : i < 6 := hi
  have hb' : b < 7 := hb
  have hr : NUM_HW_ROWS - 1 - b < 8 := by
    show 8 - 1 - b < 8
    omega
  have hfc := fill_cell M p hp (NUM_HW_ROWS - 1 - b) i hr (by omega) (by omega)
  rw [hfc, insert_cell c m p defRow M hf hp6 hM i b hi hb]
  refine ⟨rfl, ?_⟩
  simp only [Option.getD_some, Nat.and_two_pow]
  cases hbit : (defRow.getD (i + 1) 0).testBit b <;> simp [hbit]

/-- C5 witness: round-trip of 'b' at column 6. -/
theorem C5_glyph_roundtrip_witness :
    charDefMatrix.find? (fun r => r.headD 0 == 98) = some [98, 0, 255, 5, 9, 9, 6] ∧
    ∃ M, insertCharInMatrix 98 zeroM 6 = some M ∧
      ∀ i b, i < CHAR_WIDTH → b < CHAR_HEIGHT →
        (fillHWbuffer 6 M).1 (NUM_HW_ROWS - 1 - b) i =
          some (([98, 0, 255, 5, 9, 9, 6] : List Nat).getD (i + 1) 0 &&& 2 ^ b) ∧
        ((((fillHWbuffer 6 M).1 (NUM_HW_ROWS - 1 - b) i).getD 0 ≠ 0) ↔
          (([98, 0, 255, 5, 9, 9, 6] : List Nat).getD (i + 1) 0).testBit b) :=
  ⟨by decide, C5_glyph_roundtrip 98 zeroM 6 _ (by decide) (by norm_num)⟩

/-- C6: scroll cadence — from any reachable state whose window pointer is
a multiple of CHAR_WIDTH, 6 more cycles succeed, advance the window and
tail pointers by exactly CHAR_WIDTH modulo MSG_COLUMNS (both staying
multiples of CHAR_WIDTH, the tail in [0, MSG_COLUMNS)), and perform
exactly one glyph insertion. -/
theorem C6_scroll_cadence (msg : List Nat) (g : MsgMatrix) (n : Nat) (s : ScrollState)
    (hm : msg ≠ []) (hreach : scrollRun msg n (initState g) = some s)
    (hw6 : s.windowPtr % CHAR_WIDTH = 0) :
    ∃ s', scrollRun msg CHAR_WIDTH s = some s' ∧
      s'.windowPtr % CHAR_WIDTH = 0 ∧
      s'.windowPtr = (s.windowPtr + CHAR_WIDTH) % NUM_MSG_COLUMNS ∧
      s'.inserted.length = s.inserted.length + 1 ∧
      s'.tailPtr = (s.tailPtr + CHAR_WIDTH) % NUM_MSG_COLUMNS ∧
      s'.tailPtr % CHAR_WIDTH = 0 ∧ s'.tailPtr < NUM_MSG_COLUMNS := by
  obtain ⟨hw, ht6, ht, _⟩ := invT_reach msg g n s hreach
  have hc : s.msgCharPtr ≤ msg.length :=
    invC_run msg hm n (initState g) s (Nat.zero_le _) hreach
  obtain ⟨c0, hc0⟩ := cStringRead_isSome msg s.msgCharPtr hc
  have hadj : (if c0 = 0 then 0 else s.msgCharPtr) ≤ msg.length := by
    split_ifs <;> omega
  obtain ⟨cc, hcc⟩ := cStringRead_isSome msg _ hadj
  have hw6' : s.windowPtr % 6 = 0 := hw6
  obtain ⟨M, hM, hrun⟩ := run6_boundary msg s c0 cc hw6' hw ht6 ht hc0 hcc
  refine ⟨_, hrun, ?_, rfl, ?_, rfl, ?_, ?_⟩
  · show ((s.windowPtr + 6) % 18) % 6 = 0
    omega
  · show (s.inserted ++ [cc]).length = s.inserted.length + 1
    simp
  · show ((s.tailPtr + 6) % 18) % 6 = 0
    omega
  · show (s.tailPtr + 6) % 18 < 18
    omega

/-- C6 witness: one cadence period from the initial state with the
message "a". -/
theorem C6_scroll_cadence_witness :
    ([97] : List Nat) ≠ [] ∧
    ∃ s', scrollRun [97] CHAR_WIDTH (initState zeroM) = some s' ∧
      s'.windowPtr % CHAR_WIDTH = 0 ∧
      s'.windowPtr = ((initState zeroM).windowPtr + CHAR_WIDTH) % NUM_MSG_COLUMNS ∧
      s'.inserted.length = (initState zeroM).inserted.length + 1 ∧
      s'.tailPtr = ((initState zeroM).tailPtr + CHAR_WIDTH) % NUM_MSG_COLUMNS ∧
      s'.tailPtr % CHAR_WIDTH = 0 ∧ s'.tailPtr < NUM_MSG_COLUMNS :=
  ⟨by decide, C6_scroll_cadence [97] zeroM 0 (initState zeroM) (by decide) rfl (by decide)⟩

/-- C7 (amended): for every non-empty NUL-free message of length at most
255, the sequence of inserted characters cycles through the message in
order forever: after 6·(k+1) cycles the insertion log is exactly
character `j mod length` of the message for j = 0..k. -/
theorem C7_message_looping (msg : List Nat) (g : MsgMatrix) (hm : msg ≠ [])
    (hlen : msg.length ≤ 255) (hnz : ∀ x ∈ msg, x ≠ 0) (k : Nat) :
    ∃ s, scrollRun msg (CHAR_WIDTH * (k + 1)) (initState g) = some s ∧
      s.inserted = (List.range (k + 1)).map (fun j => msg.getD (j % msg.length) 0) := by
  obtain ⟨s, hrun, _, _, _, hlog⟩ := traj msg g hm hlen hnz (k + 1)
  exact ⟨s, hrun, hlog⟩

/-- C7 witness: message "ab", first four insertions are a, b, a, b. -/
theorem C7_message_looping_witness :
    ([97, 98] : List Nat) ≠ [] ∧
    ∃ s, scrollRun [97, 98] (CHAR_WIDTH * (3 + 1)) (initState zeroM) = some s ∧
      s.inserted = (List.range (3 + 1)).map
        (fun j => ([97, 98] : List Nat).getD (j % ([97, 98] : List Nat).length) 0) :=
  ⟨by decide, C7_message_looping [97, 98] zeroM (by decide) (by decide) (by decide) 3⟩

set_option maxHeartbeats 4000000 in
/-- C7 counterexample: the message cursor is a byte, so for a NUL-free
message of 257 characters (256 × 'a' then 'b') the 257th insertion
(after the cursor has wrapped at 256) re-inserts 'a' (97) where cycling
through the message in order would insert character 256 mod 257 = 'b'
(98): the inserted characters do not cycle through every message in
order. -/
theorem C7_byte_cursor :
    (scrollRun msg257 (CHAR_WIDTH * 257) (initState zeroM)).map
      (fun s => s.inserted.getD 256 0) = some 97 ∧
    msg257.getD (256 % msg257.length) 0 = 98 := by
  decide

/-- C8: a character absent from the glyph table is a silent no-op — the
linear scan finds no match, the insertion performs no write at all (the
matrix is returned unchanged, never `none`, for every insertion column). -/
theorem C8_absent_char_noop (c : Nat) (m : MsgMatrix) (columnPtr : Nat)
    (h : ∀ defRow ∈ charDefMatrix, defRow.headD 0 ≠ c) :
    insertCharInMatrix c m columnPtr = some m := by
  unfold insertCharInMatrix
  have hf : charDefMatrix.find? (fun defRow => defRow.headD 0 == c) = none := by
    rw [List.find?_eq_none]
    intro x hx
    simpa using h x hx
  rw [hf]

/-- C8 witness: 'A' (65, not in the table) at column 0 leaves the zero
matrix unchanged. -/
theorem C8_absent_char_noop_witness :
    (∀ defRow ∈ charDefMatrix, defRow.headD 0 ≠ 65) ∧
    insertCharInMatrix 65 zeroM 0 = some zeroM :=
  ⟨by decide, C8_absent_char_noop 65 zeroM 0 (by decide)⟩

/-- C9: in every reachable state of the scroll loop, row 0 of the ring
buffer is all-unlit, and hence every in-range cell of row 0 of the frame
extracted at the current window position is unlit. -/
theorem C9_row0_unlit (msg : List Nat) (g : MsgMatrix) (n : Nat) (s : ScrollState)
    (hreach : scrollRun msg n (initState g) = some s) :
    (∀ j, j < NUM_MSG_COLUMNS → s.msgMatrix 0 j = 0) ∧
    (∀ col, col < NUM_HW_COLUMNS →
      ((fillHWbuffer s.windowPtr s.msgMatrix).1 0 col).getD 0 = 0) := by
  obtain ⟨hw, _, _, hm0⟩ := invT_reach msg g n s hreach
  exact ⟨hm0, fill_row0 s.msgMatrix s.windowPtr hm0 hw⟩

/-- C9 witness: the initial (cleared) state. -/
theorem C9_row0_unlit_witness :
    (∀ j, j < NUM_MSG_COLUMNS → (initState zeroM).msgMatrix 0 j = 0) ∧
    (∀ col, col < NUM_HW_COLUMNS →
      ((fillHWbuffer (initState zeroM).windowPtr (initState zeroM).msgMatrix).1
        0 col).getD 0 = 0) :=
  C9_row0_unlit [] zeroM 0 (initState zeroM) rfl

/-- C10: for a non-empty message the cursor stays in [0, length] in every
reachable state and the next loop iteration never faults (every string
read in bounds); for the empty message the loop faults by the second
character boundary (the read of index 1 is one past the terminator). -/
theorem C10_cursor_safety (msg : List Nat) (g : MsgMatrix) (n : Nat) (s : ScrollState)
    (hm : msg ≠ []) (hreach : scrollRun msg n (initState g) = some s) :
    s.msgCharPtr ≤ msg.length ∧ (∃ s', scrollStep msg s = some s') ∧
      (scrollRun [] (CHAR_WIDTH + CHAR_WIDTH) (initState zeroM)).isSome = false := by
  obtain ⟨hw, ht6, ht, _⟩ := invT_reach msg g n s hreach
  have hc : s.msgCharPtr ≤ msg.length :=
    invC_run msg hm n (initState g) s (Nat.zero_le _) hreach
  refine ⟨hc, step_some msg s ht6 ht hc, ?_⟩
  decide

/-- C10 witness: the initial state with the message "a". -/
theorem C10_cursor_safety_witness :
    (initState zeroM).msgCharPtr ≤ ([97] : List Nat).length ∧
    (∃ s', scrollStep [97] (initState zeroM) = some s') ∧
    (scrollRun [] (CHAR_WIDTH + CHAR_WIDTH) (initState zeroM)).isSome = false :=
  C10_cursor_safety [97] zeroM 0 (initState zeroM) (by decide) rfl
